import Mathlib

/-!
# commands.c: spawning a child, multiplexing its pipes, reaping it, and the line stream

A shallow embedding of `src/commands.c` (`run_command`, `_line_reader_cleanup`,
`_next_line`, `command_by_line`).

The operating system is an explicit script: the value `posix_spawn` returns, the
results of every `poll`/`write`/`read` of the multiplexing loop, and the results of the
successive `waitpid` calls.  Each function returns its result together with the
ordered list of system calls it made.  A call that the script leaves without a result
(a `poll`, a `write` or a `waitpid` that blocks for good) is recorded and ends the run
with `returned = none`.

Pipe descriptors are named by pipe and end, so a descriptor number taken again by a
later `open` is not modelled.  Left out, as they touch none of the results above:
`pthread_testcancel` (line 21), `List$compact` of a strided input (lines 103-104), and
the capacity bookkeeping around `GC_REALLOC` (lines 138-141, 153-156), whose effect is
that the bytes read are appended to the buffer.
-/

namespace Commands

/-! ## Data model -/

/-- A byte of a pipe or of a C buffer (`char`). -/
abbrev Byte := Nat

/-- The runtime's text value. -/
abbrev Text_t := String

/-- A `char *`: `none` is the `NULL` pointer. -/
abbrev CStr := Option String

/-- The table of environment overrides: `env_table.entries`, key and value per entry. -/
structure Table_t where
  entries : List (Text_t × Text_t)

/-- Modelled from the spec: `Text$as_c_string` belongs to the Tomo runtime, not to this
repository; §4.1 has the texts "passed verbatim", so the C string is the text itself. -/
def Text_as_c_string (t : Text_t) : String := t

/-- Modelled from the spec: `List$insert` and `List$insert_value` with index `I(0)` belong
to the Tomo runtime's list container, not to this repository; §4.1 and §9 have the
entries laid out in insertion order ("inherited entries followed by overrides"), so
inserting at index `I(0)` puts the item after the last element. -/
def List_insert {α : Type} (list : List α) (item : α) : List α := list ++ [item]

/-- Modelled from the spec: the runtime's `String(a, b, c)` builder, not part of this
repository; §6 has each entry "rendered as the concatenation KEY + = + VALUE". -/
def String_ (a b c : Text_t) : String := a ++ b ++ c

/-- The three pipes of `run_command`. -/
inductive Pipe where
  | child_inpipe
  | child_outpipe
  | child_errpipe
  deriving DecidableEq, Repr

/-- The two ends of a pipe: `#define READ_END 0`, `#define WRITE_END 1`. -/
inductive End where
  | READ_END
  | WRITE_END
  deriving DecidableEq, Repr

/-- A pipe descriptor, `child_inpipe[WRITE_END]` and the like. -/
abbrev Fd := Pipe × End

/-- The `events` field of a `struct pollfd`, as far as the code sets it. -/
inductive Events where
  | zero
  | POLLIN
  | POLLOUT
  deriving DecidableEq, Repr

/-- One `struct pollfd`; `fd = none` is the zero-initialised entry (descriptor 0). -/
structure pollfd where
  fd : Option Fd
  events : Events
  deriving DecidableEq, Repr

/-- A spawn-time file action. -/
inductive FileAction where
  | adddup2 (fd : Fd) (target : Nat)
  | addclose (fd : Fd)
  deriving DecidableEq, Repr

/-- The system calls the embedding records, in the order they are made. -/
inductive Call where
  | pipe (p : Pipe)
  | posix_spawn (search_path : Bool) (exe_str : String) (actions : List FileAction)
      (args : List CStr) (env : List CStr)
  | close (fd : Fd)
  | poll (fds : List pollfd)
  | write (fd : Fd) (data : List Byte) (ret : Int)
  | write_blocked (fd : Fd) (data : List Byte)
  | read (fd : Fd) (buf : List Byte) (ret : Int)
  | waitpid (pid : Nat)
  | kill (pid : Nat) (sig : Nat)
  | fclose
  deriving DecidableEq, Repr

def SIGINT : Nat := 2
def SIGQUIT : Nat := 3
def SIGTERM : Nat := 15
def SIGCHLD : Nat := 17
def SIGCONT : Nat := 18
def EINTR : Int := 4
def STDIN_FILENO : Nat := 0
def STDOUT_FILENO : Nat := 1
def STDERR_FILENO : Nat := 2

/-- A signal handler setting: `SIG_DFL`, `SIG_IGN`, or an installed handler. -/
inductive sighandler where
  | SIG_DFL
  | SIG_IGN
  | handler (h : Nat)
  deriving DecidableEq, Repr

/-- A signal set, by membership. -/
abbrev sigset_t := Nat → Bool

def sigemptyset : sigset_t := fun _ => false

def sigaddset (set : sigset_t) (sig : Nat) : sigset_t := fun x => x == sig || set x

/-- A `struct sigaction`: handler and mask. -/
structure sigaction_t where
  sa_handler : sighandler
  sa_mask : sigset_t

/-- What `run_command` can change of its caller's state: the dispositions of `SIGINT` and
`SIGQUIT`, the signal mask, and `errno` (followed through the spawn call and the
`waitpid` calls, the two places where the code reads or is meant to set it). -/
structure Thread where
  sigint : sigaction_t
  sigquit : sigaction_t
  sigmask : sigset_t
  errno : Int

/-- The attributes given to the spawn: `posix_spawnattr_setsigmask` and
`posix_spawnattr_setsigdefault`. -/
structure posix_spawnattr_t where
  sigmask : sigset_t
  sigdefault : sigset_t

/-- Modelled from the spec: the wait-status tests of `<sys/wait.h>` are not part of this
repository; §6 has the status "decomposable into exited normally with code N, terminated
by signal S", given here its usual encoding: low seven bits zero for a normal exit. -/
def WIFEXITED (status : Int) : Bool := status % 128 == 0

/-- Modelled from the spec: `WIFSIGNALED` of `<sys/wait.h>` (see `WIFEXITED`): the low seven
bits hold a signal number from 1 to 126. -/
def WIFSIGNALED (status : Int) : Bool := 1 ≤ status % 128 && status % 128 ≤ 126

/-- Modelled from the spec: `WIFSTOPPED` of `<sys/wait.h>` (see `WIFEXITED`): the low byte is
`0x7f`. -/
def WIFSTOPPED (status : Int) : Bool := status % 256 == 127

/-- Modelled from the spec: `WEXITSTATUS` of `<sys/wait.h>` (see `WIFEXITED`): the exit code
is the second byte. -/
def WEXITSTATUS (status : Int) : Int := (status / 256) % 256

/-! ## The scripted operating system -/

/-- What the system does in one iteration of the multiplexing loop: which `revents` the
`poll` leaves nonzero, and what a `write` or `read` made in this iteration returns.
`write = none` is a return of -1, `some k` accepts `k` bytes (never more than were
offered); `read = none` is a return of -1, `some c` delivers `c` cut to the 256
bytes of `buf` (no byte means end of file). `write_blocks` says that the `write` of
this iteration does not return: the pipes are in blocking mode, and a `write` of more
bytes than the pipe takes sleeps until a reader makes room. -/
structure Ready where
  revents0 : Bool
  revents1 : Bool
  revents2 : Bool
  write : Option Nat
  read_out : Option (List Byte)
  read_err : Option (List Byte)
  write_blocks : Bool := false
  deriving DecidableEq, Repr

/-- One `waitpid` call: the child is reaped and its status stored, or the call
fails with an error number and stores nothing. -/
inductive WaitResult where
  | reaped (status : Int)
  | failed (errno : Int)
  deriving DecidableEq, Repr

/-- The script of one `run_command` call. `spawn_ret` is the value the spawn call returns
(0, or the error number); `spawn_errno` is what the call leaves in `errno`, if it
touches it (the C library's call leaves there the error number it returns). -/
structure World where
  spawn_ret : Int
  spawn_pid : Nat
  spawn_errno : Option Int
  polls : List Ready
  waits : List WaitResult

/-! ## `run_command` -/

/-- Lines 58-65: the argument vector of `run_command`. -/
def run_command_args (exe : Text_t) (arg_list : List Text_t) : List CStr :=
  let exe_str := Text_as_c_string exe
  let arg_strs : List CStr := []
  let arg_strs := List_insert arg_strs (some exe_str)
  let arg_strs := arg_list.foldl
    (fun acc a => List_insert acc (some (Text_as_c_string a))) arg_strs
  List_insert arg_strs none

/-- Lines 67-82: the environment of `run_command`. `environ` is the process's array of
`char *`, read up to its first `NULL`. -/
def run_command_env (environ : List CStr) (env_table : Table_t) : List CStr :=
  if env_table.entries.length > 0 then
    let env_list : List CStr := []
    let env_list := (environ.takeWhile Option.isSome).foldl
      (fun acc e => List_insert acc e) env_list
    let env_list := env_table.entries.foldl
      (fun acc entry => List_insert acc (some (String_ entry.1 "=" entry.2))) env_list
    List_insert env_list none
  else environ

/-- The locals of `run_command` that the multiplexing loop reads and writes.
`input_bytes = none` is the absent list (`length < 0`); `output_bytes = none` and
`error_bytes = none` are `NULL` pointers. -/
structure Locals where
  input_bytes : Option (List Byte)
  output_bytes : Option (List Byte)
  error_bytes : Option (List Byte)
  pollfds0 : pollfd
  pollfds1 : pollfd
  pollfds2 : pollfd
  trace : List Call

/-- Record a system call. -/
def Locals.call (s : Locals) (c : Call) : Locals := { s with trace := s.trace ++ [c] }

/-- The value of `input_bytes.length`. -/
def Locals.input_length (s : Locals) : Int :=
  match s.input_bytes with
  | none => -1
  | some data => data.length

/-- The return value of a scripted `write` of `data`. -/
def write_ret (r : Option Nat) (data : List Byte) : Int :=
  match r with
  | none => -1
  | some k => (min k data.length : Nat)

/-- The bytes a scripted `read` stores in `buf[256]`. -/
def read_buf (r : Option (List Byte)) : List Byte :=
  match r with
  | none => []
  | some c => c.take 256

/-- The return value of a scripted `read`. -/
def read_ret (r : Option (List Byte)) : Int :=
  match r with
  | none => -1
  | some c => ((c.take 256).length : Nat)

/-- Lines 114-124: the `write` of pending input, made when `input_bytes.length > 0`. -/
def mux_stdin_write (ev : Ready) (s : Locals) (did_something : Bool) : Locals × Bool :=
  if s.input_length > 0 then
    let data := s.input_bytes.getD []
    let written := write_ret ev.write data
    let s := s.call (.write (.child_inpipe, .WRITE_END) data written)
    if written > 0 then
      ({ s with input_bytes := some (data.drop written.toNat) }, true)
    else if written < 0 then
      let s := s.call (.close (.child_inpipe, .WRITE_END))
      ({ s with pollfds0 := { s.pollfds0 with events := .zero } }, did_something)
    else (s, did_something)
  else (s, did_something)

/-- Lines 125-128: the close of the stdin pipe once `input_bytes.length <= 0`. -/
def mux_stdin_close (s : Locals) : Locals :=
  if s.input_length ≤ 0 then
    let s := s.call (.close (.child_inpipe, .WRITE_END))
    { s with pollfds0 := { s.pollfds0 with events := .zero } }
  else s

/-- Lines 113-129: the stdin part of one loop iteration. -/
def mux_stdin (ev : Ready) (s : Locals) (did_something : Bool) : Locals × Bool :=
  if s.input_length ≥ 0 && ev.revents0 then
    let p := mux_stdin_write ev s did_something
    (mux_stdin_close p.1, p.2)
  else (s, did_something)

/-- Lines 131-145: the stdout part of one loop iteration. -/
def mux_stdout (ev : Ready) (s : Locals) (did_something : Bool) : Locals × Bool :=
  match s.output_bytes with
  | none => (s, did_something)
  | some out =>
    if ev.revents1 then
      let n := read_ret ev.read_out
      let buf := read_buf ev.read_out
      let s := s.call (.read (.child_outpipe, .READ_END) buf n)
      let did_something := did_something || decide (n > 0)
      if n ≤ 0 then
        let s := s.call (.close (.child_outpipe, .READ_END))
        ({ s with pollfds1 := { s.pollfds1 with events := .zero } }, did_something)
      else
        ({ s with output_bytes := some (out ++ buf.take n.toNat) }, did_something)
    else (s, did_something)

/-- Lines 146-160: the stderr part of one loop iteration. -/
def mux_stderr (ev : Ready) (s : Locals) (did_something : Bool) : Locals × Bool :=
  match s.error_bytes with
  | none => (s, did_something)
  | some err =>
    if ev.revents2 then
      let n := read_ret ev.read_err
      let buf := read_buf ev.read_err
      let s := s.call (.read (.child_errpipe, .READ_END) buf n)
      let did_something := did_something || decide (n > 0)
      if n ≤ 0 then
        let s := s.call (.close (.child_errpipe, .READ_END))
        ({ s with pollfds2 := { s.pollfds2 with events := .zero } }, did_something)
      else
        ({ s with error_bytes := some (err ++ buf.take n.toNat) }, did_something)
    else (s, did_something)

/-- Lines 111-160: one iteration of the loop body, up to the test of `did_something`. -/
def mux_iter (ev : Ready) (s : Locals) : Locals × Bool :=
  let s := s.call (.poll [s.pollfds0, s.pollfds1, s.pollfds2])
  let did_something := false
  let p := mux_stdin ev s did_something
  let p := mux_stdout ev p.1 p.2
  mux_stderr ev p.1 p.2

/-- Line 110: the loop condition. -/
def mux_cond (s : Locals) : Bool :=
  s.input_length > 0 || s.output_bytes.isSome || s.error_bytes.isSome

/-- Whether the iteration scripted by `ev` reaches the `write` of line 115 and stays in
it: the guards of lines 113 and 114 pass and the script has the `write` block. -/
def mux_write_blocks (ev : Ready) (s : Locals) : Bool :=
  ev.write_blocks && decide (s.input_length > 0) && ev.revents0

/-- Lines 110-162: the multiplexing loop over the scripted iterations. The flag is
`false` when the loop does not end: the script is over and the `poll` made does not
return, or the `write` of line 115 is made and does not return. -/
def mux_loop : List Ready → Locals → Locals × Bool
  | [], s =>
    if mux_cond s then (s.call (.poll [s.pollfds0, s.pollfds1, s.pollfds2]), false)
    else (s, true)
  | ev :: rest, s =>
    if mux_cond s then
      if mux_write_blocks ev s then
        let s := s.call (.poll [s.pollfds0, s.pollfds1, s.pollfds2])
        (s.call (.write_blocked (.child_inpipe, .WRITE_END) (s.input_bytes.getD [])), false)
      else
        let p := mux_iter ev s
        if !p.2 then (p.1, true) else mux_loop rest p.1
    else (s, true)

/-- The locals of the wait loop. -/
structure Reap where
  status : Int
  errno : Int
  trace : List Call

/-- Lines 166-171: the wait loop over the scripted `waitpid` results. The flag is
`false` when the script ends: the `waitpid` is made and does not return. -/
def wait_loop (pid : Nat) : List WaitResult → Reap → Reap × Bool
  | [], r => ({ r with trace := r.trace ++ [.waitpid pid] }, false)
  | .reaped status :: _, r =>
    ({ r with status := status, trace := r.trace ++ [.waitpid pid] }, true)
  | .failed errno :: rest, r =>
    let r := { r with errno := errno, trace := r.trace ++ [.waitpid pid] }
    if errno == EINTR then
      if WIFEXITED r.status || WIFSIGNALED r.status then (r, true)
      else if WIFSTOPPED r.status then
        wait_loop pid rest { r with trace := r.trace ++ [.kill pid SIGCONT] }
      else wait_loop pid rest r
    else (r, true)

/-- The caller's settings saved at entry: `oldint`, `oldquit`, `old`. -/
structure Saved where
  oldint : sigaction_t
  oldquit : sigaction_t
  old : sigset_t

/-- Lines 23-36: ignore `SIGINT` and `SIGQUIT`, block `SIGCHLD`, and prepare the spawn
attributes. The result is the thread afterwards, the saved settings, and the attributes. -/
def run_command_signals (t : Thread) : Thread × Saved × posix_spawnattr_t :=
  -- lines 23-25
  let sa : sigaction_t := { sa_handler := .SIG_IGN, sa_mask := sigemptyset }
  let oldint := t.sigint
  let t := { t with sigint := sa }
  let oldquit := t.sigquit
  let t := { t with sigquit := sa }
  -- lines 26-28
  let sa := { sa with sa_mask := sigaddset sa.sa_mask SIGCHLD }
  let old := t.sigmask
  let t := { t with sigmask := fun x => old x || sa.sa_mask x }
  -- lines 29-31
  let reset := sigemptyset
  let reset := if oldint.sa_handler ≠ .SIG_IGN then sigaddset reset SIGINT else reset
  let reset := if oldquit.sa_handler ≠ .SIG_IGN then sigaddset reset SIGQUIT else reset
  -- lines 32-36
  (t, { oldint := oldint, oldquit := oldquit, old := old }, { sigmask := old, sigdefault := reset })

/-- Lines 38-41: the pipes created. -/
def run_command_pipes (input_bytes : Option (List Byte)) (want_output want_error : Bool) :
    List Call :=
  let trace : List Call := []
  let trace := if input_bytes.isSome then trace ++ [.pipe .child_inpipe] else trace
  let trace := if want_output then trace ++ [.pipe .child_outpipe] else trace
  if want_error then trace ++ [.pipe .child_errpipe] else trace

/-- Lines 43-56: the file actions of the spawn. -/
def run_command_actions (input_bytes : Option (List Byte)) (want_output want_error : Bool) :
    List FileAction :=
  let actions : List FileAction := []
  let actions := if input_bytes.isSome then
      actions ++ [.adddup2 (.child_inpipe, .READ_END) STDIN_FILENO,
                  .addclose (.child_inpipe, .WRITE_END)]
    else actions
  let actions := if want_output then
      actions ++ [.adddup2 (.child_outpipe, .WRITE_END) STDOUT_FILENO,
                  .addclose (.child_outpipe, .READ_END)]
    else actions
  if want_error then
      actions ++ [.adddup2 (.child_errpipe, .WRITE_END) STDERR_FILENO,
                  .addclose (.child_errpipe, .READ_END)]
    else actions

/-- Lines 58-87: the spawn call, `posix_spawn` for a path starting with `'/'` and
`posix_spawnp` otherwise. -/
def run_command_spawn (environ : List CStr) (exe : Text_t) (arg_list : List Text_t)
    (env_table : Table_t) (input_bytes : Option (List Byte)) (want_output want_error : Bool) :
    Call :=
  let exe_str := Text_as_c_string exe
  let args := run_command_args exe arg_list
  let env := run_command_env environ env_table
  .posix_spawn (exe_str.data.head? != some '/') exe_str
    (run_command_actions input_bytes want_output want_error) args env

/-- Lines 94-108: the parent after a successful spawn: the closes of the child's ends, the
`pollfd` array, and the empty output buffers. -/
def run_command_parent (trace : List Call) (input_bytes : Option (List Byte))
    (want_output want_error : Bool) : Locals :=
  -- lines 94-96
  let trace := if input_bytes.isSome then trace ++ [.close (.child_inpipe, .READ_END)] else trace
  let trace := if want_output then trace ++ [.close (.child_outpipe, .WRITE_END)] else trace
  let trace := if want_error then trace ++ [.close (.child_errpipe, .WRITE_END)] else trace
  -- lines 98-101
  let pollfds0 : pollfd := { fd := none, events := .zero }
  let pollfds1 : pollfd := { fd := none, events := .zero }
  let pollfds2 : pollfd := { fd := none, events := .zero }
  let pollfds0 := if input_bytes.isSome then
      { fd := some (.child_inpipe, .WRITE_END), events := .POLLOUT } else pollfds0
  let pollfds1 := if want_output then
      { fd := some (.child_outpipe, .WRITE_END), events := .POLLIN } else pollfds1
  let pollfds2 := if want_error then
      { fd := some (.child_errpipe, .WRITE_END), events := .POLLIN } else pollfds2
  -- lines 103-108
  { input_bytes := input_bytes,
    output_bytes := if want_output then some [] else none,
    error_bytes := if want_error then some [] else none,
    pollfds0 := pollfds0, pollfds1 := pollfds1, pollfds2 := pollfds2, trace := trace }

/-- Lines 174-176: the closes after the wait. -/
def run_command_cleanup (s : Locals) (trace : List Call) : List Call :=
  let trace := if s.input_length ≥ 0 then trace ++ [.close (.child_inpipe, .WRITE_END)] else trace
  let trace := if s.output_bytes.isSome then trace ++ [.close (.child_outpipe, .READ_END)] else trace
  if s.error_bytes.isSome then trace ++ [.close (.child_errpipe, .READ_END)] else trace

/-- What a call of `run_command` leaves behind. `returned` is the `int` it returns, or
`none` when the script ends before the call returns. -/
structure Result where
  returned : Option Int
  thread : Thread
  attr : posix_spawnattr_t
  input_bytes : Option (List Byte)
  output_bytes : Option (List Byte)
  error_bytes : Option (List Byte)
  trace : List Call

/-- The function `run_command` of lines 18-184. `want_output` and `want_error` say whether the
pointers `output_bytes` and `error_bytes` are non-`NULL`. -/
def run_command (w : World) (environ : List CStr) (t : Thread)
    (exe : Text_t) (arg_list : List Text_t) (env_table : Table_t)
    (input_bytes : Option (List Byte)) (want_output want_error : Bool) : Result :=
  -- lines 23-36
  let sig := run_command_signals t
  let t := sig.1
  let saved := sig.2.1
  let attr := sig.2.2
  -- lines 38-87
  let trace := run_command_pipes input_bytes want_output want_error
  let trace := trace ++
    [run_command_spawn environ exe arg_list env_table input_bytes want_output want_error]
  let t := { t with errno := w.spawn_errno.getD t.errno }
  let ret := w.spawn_ret
  let pid := w.spawn_pid
  -- lines 88-89
  if ret ≠ 0 then
    { returned := some (-1), thread := t, attr := attr, input_bytes := input_bytes,
      output_bytes := none, error_bytes := none, trace := trace }
  else
    -- lines 94-108
    let s := run_command_parent trace input_bytes want_output want_error
    -- lines 110-162
    let m := mux_loop w.polls s
    let s := m.1
    if !m.2 then
      { returned := none, thread := t, attr := attr, input_bytes := s.input_bytes,
        output_bytes := s.output_bytes, error_bytes := s.error_bytes, trace := s.trace }
    else
      -- lines 164-172
      let status : Int := 0
      let r := wait_loop pid w.waits { status := status, errno := t.errno, trace := s.trace }
      let t := { t with errno := r.1.errno }
      if !r.2 then
        { returned := none, thread := t, attr := attr, input_bytes := s.input_bytes,
          output_bytes := s.output_bytes, error_bytes := s.error_bytes, trace := r.1.trace }
      else
        -- lines 174-176
        let trace := run_command_cleanup s r.1.trace
        -- lines 178-180
        let t := { t with sigint := saved.oldint, sigquit := saved.oldquit, sigmask := saved.old }
        -- lines 182-183
        let t := if ret ≠ 0 then { t with errno := ret } else t
        { returned := some r.1.status, thread := t, attr := attr, input_bytes := s.input_bytes,
          output_bytes := s.output_bytes, error_bytes := s.error_bytes, trace := trace }

/-! ## The line stream: `_line_reader_cleanup`, `_next_line`, `command_by_line` -/

/-- The record `child_info_t`: the child's pid (0 once it has been signalled) and its output
stream. `out = none` is the `NULL` stream; `some bytes` is an open stream on which
`bytes` are still to be read before end of file. -/
structure child_info_t where
  pid : Nat
  out : Option (List Byte)
  deriving DecidableEq, Repr

/-- What a pull returns: `NONE_TEXT`, a line, or the call of `fail`. -/
inductive Pull where
  | NONE_TEXT
  | text (bytes : List Byte)
  | fail (msg : String)
  deriving DecidableEq, Repr

/-- Lines 191-201: `_line_reader_cleanup` on a non-`NULL` child: the record afterwards
and the calls made. -/
def _line_reader_cleanup (child : child_info_t) : child_info_t × List Call :=
  -- lines 193-196
  let calls : List Call := if child.out.isSome then [.fclose] else []
  let child := if child.out.isSome then { child with out := none } else child
  -- lines 197-200
  if child.pid ≠ 0 then ({ child with pid := 0 }, calls ++ [.kill child.pid SIGTERM])
  else (child, calls)

/-- The bytes `getline` takes from a stream, up to and including the first line feed, and
the bytes it leaves. -/
def getline_split : List Byte → List Byte × List Byte
  | [] => ([], [])
  | c :: cs =>
    if c = 10 then ([c], cs)
    else (c :: (getline_split cs).1, (getline_split cs).2)

/-- The library call `getline` on a stream of known content: the length returned (-1 at end of
file), the line buffer, and the rest of the stream. -/
def getline (stream : List Byte) : Int × List Byte × List Byte :=
  let line := (getline_split stream).1
  let rest := (getline_split stream).2
  (if line.length = 0 then -1 else (line.length : Int), line, rest)

/-- Lines 215-216: the loop that steps `len` back over trailing `'\r'` and `'\n'`. -/
def strip_len (line : List Byte) : Nat → Nat
  | 0 => 0
  | len + 1 =>
    if line.getD len 0 = 13 ∨ line.getD len 0 = 10 then strip_len line len else len + 1

/-- Lines 203-224: `_next_line`. `u8_check` is libunistring's validator: it returns `none`
(`NULL`) on well-formed input and the position of the first ill-formed unit otherwise.
The result is the value returned, the child record afterwards, and the calls made. -/
def _next_line (u8_check : List Byte → Option Nat) (child : Option child_info_t) :
    Pull × Option child_info_t × List Call :=
  match child with
  | none => (.NONE_TEXT, none, [])
  | some c =>
    match c.out with
    | none => (.NONE_TEXT, some c, [])
    | some stream =>
      -- lines 207-209
      let len := (getline stream).1
      let line := (getline stream).2.1
      let c := { c with out := some (getline stream).2.2 }
      -- lines 210-213
      if len ≤ 0 then (.NONE_TEXT, some (_line_reader_cleanup c).1, (_line_reader_cleanup c).2)
      else
        -- lines 215-216
        let len := strip_len line len.toNat
        -- lines 218-223
        if (u8_check (line.take len)).isSome then (.fail "Invalid UTF8!", some c, [])
        else (.text (line.take len), some c, [])

/-- The values returned by `n` successive pulls on a line stream. A pull that calls `fail`
does not return, so it is the last one. -/
def pulls (u8_check : List Byte → Option Nat) : Nat → Option child_info_t → List Pull
  | 0, _ => []
  | n + 1, child =>
    match (_next_line u8_check child).1 with
    | .fail msg => [.fail msg]
    | r => r :: pulls u8_check n (_next_line u8_check child).2.1

/-- The script of one `command_by_line` call: what the spawn returns, and everything the
child will write to its standard output. -/
structure LineWorld where
  spawn_ret : Int
  spawn_pid : Nat
  child_stdout : List Byte

/-- Lines 239-246: the argument vector of `command_by_line`. -/
def command_by_line_args (exe : Text_t) (arg_list : List Text_t) : List CStr :=
  let exe_str := Text_as_c_string exe
  let arg_strs : List CStr := []
  let arg_strs := List_insert arg_strs (some exe_str)
  let arg_strs := arg_list.foldl
    (fun acc a => List_insert acc (some (Text_as_c_string a))) arg_strs
  List_insert arg_strs none

/-- Lines 248-263: the environment of `command_by_line`. -/
def command_by_line_env (environ : List CStr) (env_table : Table_t) : List CStr :=
  if env_table.entries.length > 0 then
    let env_list : List CStr := []
    let env_list := (environ.takeWhile Option.isSome).foldl
      (fun acc e => List_insert acc e) env_list
    let env_list := env_table.entries.foldl
      (fun acc entry => List_insert acc (some (String_ entry.1 "=" entry.2))) env_list
    List_insert env_list none
  else environ

/-- Lines 226-282: `command_by_line`. The closure returned is `_next_line` with the child
record as its data; `none` is `NONE_CLOSURE`. -/
def command_by_line (w : LineWorld) (environ : List CStr)
    (exe : Text_t) (arg_list : List Text_t) (env_table : Table_t) :
    Option child_info_t × List Call :=
  let trace : List Call := [.pipe .child_outpipe]
  let actions : List FileAction :=
    [.adddup2 (.child_outpipe, .WRITE_END) STDOUT_FILENO, .addclose (.child_outpipe, .READ_END)]
  let exe_str := Text_as_c_string exe
  let args := command_by_line_args exe arg_list
  let env := command_by_line_env environ env_table
  let trace := trace ++ [.posix_spawn (exe_str.data.head? != some '/') exe_str actions args env]
  if w.spawn_ret ≠ 0 then (none, trace)
  else
    let trace := trace ++ [.close (.child_outpipe, .WRITE_END)]
    (some { out := some w.child_stdout, pid := w.spawn_pid }, trace)

/-! ## Observations on a trace -/

/-- The descriptors passed to `close`, in order. -/
def closes : List Call → List Fd
  | [] => []
  | .close fd :: rest => fd :: closes rest
  | _ :: rest => closes rest

/-- The argument vector and the environment handed to the first spawn call of a trace. -/
def spawn_vectors : List Call → Option (List CStr × List CStr)
  | [] => none
  | .posix_spawn _ _ _ args env :: _ => some (args, env)
  | _ :: rest => spawn_vectors rest

/-- The bytes one call puts into the child's standard input: what a successful `write` on
the write end of the stdin pipe accepted. -/
def written_of : Call → List Byte
  | .write (.child_inpipe, .WRITE_END) data ret => if ret > 0 then data.take ret.toNat else []
  | _ => []

/-- The bytes the child received on its standard input, in order. -/
def written_bytes : List Call → List Byte
  | [] => []
  | c :: rest => written_of c ++ written_bytes rest

/-- The bytes one call takes out of the child's standard output: what a successful `read`
on the read end of the stdout pipe delivered. -/
def read_of : Call → List Byte
  | .read (.child_outpipe, .READ_END) buf ret => if ret > 0 then buf.take ret.toNat else []
  | _ => []

/-- The bytes the reads on the read end of the stdout pipe delivered, in order. -/
def read_bytes : List Call → List Byte
  | [] => []
  | c :: rest => read_of c ++ read_bytes rest

/-- The descriptors registered in the `pollfd` array of the first `poll` of a trace. -/
def first_poll : List Call → Option (List pollfd)
  | [] => none
  | .poll fds :: _ => some fds
  | _ :: rest => first_poll rest

/-- The calls made before the first `waitpid`. -/
def before_wait : List Call → List Call
  | [] => []
  | .waitpid _ :: _ => []
  | c :: rest => c :: before_wait rest

/-- The calls made before the first `poll`. -/
def before_poll : List Call → List Call
  | [] => []
  | .poll _ :: _ => []
  | c :: rest => c :: before_poll rest

/-! ## The claim's wording of the line sequence -/

/-- The lines of an output, as the specification words them: the pieces between line feeds
(a final piece without a line feed counts, an empty final piece does not), each with
its trailing carriage returns and line feeds removed. -/
def spec_lines (output : List Byte) : List (List Byte) :=
  let pieces := output.splitOn 10
  let pieces := if pieces.getLast? = some [] then pieces.dropLast else pieces
  pieces.map (fun l => l.rdropWhile (fun c => c == 13 || c == 10))

/-! ## Example inputs -/

/-- A caller with default handling of `SIGINT` and `SIGQUIT`, nothing blocked, `errno` 0. -/
def thread_default : Thread :=
  { sigint := { sa_handler := .SIG_DFL, sa_mask := sigemptyset },
    sigquit := { sa_handler := .SIG_DFL, sa_mask := sigemptyset },
    sigmask := sigemptyset,
    errno := 0 }

/-- The error number `ENOENT`. -/
def ENOENT : Int := 2

/-- A system in which the spawn fails with `ENOENT`: the call returns `ENOENT` and leaves
`ENOENT` in `errno`. -/
def world_spawn_fails : World :=
  { spawn_ret := ENOENT, spawn_pid := 0, spawn_errno := some ENOENT, polls := [], waits := [] }

/-- A system in which the spawn succeeds, the child writes nothing and exits with code 0:
the first `poll` flags `pollfds[1]`, the `read` finds end of file, and the first
`waitpid` reaps the child. -/
def world_silent_child : World :=
  { spawn_ret := 0, spawn_pid := 7, spawn_errno := none,
    polls := [{ revents0 := false, revents1 := true, revents2 := false,
                write := none, read_out := some [], read_err := none }],
    waits := [.reaped 0] }

/-- A system in which the spawn succeeds and the child exits with code 0 once it is
waited for; no `poll` is scripted. -/
def world_child_exits : World :=
  { spawn_ret := 0, spawn_pid := 7, spawn_errno := none, polls := [], waits := [.reaped 0] }

/-- A system in which the spawn succeeds and the child reads its standard input to the
end before it exits: while the parent holds the write end open, `waitpid` does not
return. -/
def world_child_reads_stdin : World :=
  { spawn_ret := 0, spawn_pid := 7, spawn_errno := none, polls := [], waits := [] }

/-- A system in which the child exits with code 3 (status `3 * 256`), and the first
`waitpid` is interrupted by a signal before the second one reaps the child. -/
def world_wait_interrupted : World :=
  { spawn_ret := 0, spawn_pid := 7, spawn_errno := none, polls := [],
    waits := [.failed EINTR, .reaped (3 * 256)] }

/-- The same child with no interruption of the wait. -/
def world_wait_plain : World :=
  { spawn_ret := 0, spawn_pid := 7, spawn_errno := none, polls := [],
    waits := [.reaped (3 * 256)] }

/-- An echoing child (`cat`) and the payload `[1, 2, 3]`. Both polls flag `pollfds[0]`
(writable, then closed) and `pollfds[1]` (the closed write end registered at line 100).
First iteration: the three bytes are written and the child's copy is read. Second
iteration: the read finds end of file. Then the child is reaped with status 0. -/
def world_echo : World :=
  { spawn_ret := 0, spawn_pid := 7, spawn_errno := none,
    polls := [{ revents0 := true, revents1 := true, revents2 := false,
                write := some 3, read_out := some [1, 2, 3], read_err := none },
              { revents0 := true, revents1 := true, revents2 := false,
                write := none, read_out := some [], read_err := none }],
    waits := [.reaped 0] }

/-- A payload of 1 MiB: 1048576 zero bytes. -/
def payload_1MiB : List Byte := List.replicate 1048576 0

/-- An echoing child (`cat`) fed more than the pipes hold. The first `poll` flags
`pollfds[0]` (the stdin pipe is writable) and `pollfds[1]`; the `write` of the whole
payload fills the stdin pipe, the child fills the stdout pipe with its copy and then
waits for a reader, and the `write` never returns. -/
def world_echo_blocks : World :=
  { spawn_ret := 0, spawn_pid := 7, spawn_errno := none,
    polls := [{ revents0 := true, revents1 := true, revents2 := false,
                write := none, read_out := none, read_err := none, write_blocks := true }],
    waits := [] }

/-- A child of `command_by_line` that writes `"a\nb\r\nc"` (bytes 97, 10, 98, 13, 10, 99) to
its standard output. -/
def world_three_lines : LineWorld :=
  { spawn_ret := 0, spawn_pid := 7, child_stdout := [97, 10, 98, 13, 10, 99] }

/-- A validator that accepts exactly the byte strings made of ASCII bytes: every such
string is well-formed UTF-8. It stands for `u8_check` in the worked example. -/
def ascii_check (bytes : List Byte) : Option Nat :=
  bytes.findIdx? (fun b => decide (128 ≤ b))

/-! ## Lemmas on the runtime's list insertion -/

theorem foldl_List_insert {α β : Type} (f : β → α) (l : List β) (init : List α) :
    l.foldl (fun acc a => List_insert acc (f a)) init = init ++ l.map f := by
  induction l generalizing init with
  | nil => simp
  | cons a l ih =>
    rw [List.foldl_cons, ih]
    simp [List_insert]

theorem foldl_List_insert_self {α : Type} (l : List α) (init : List α) :
    l.foldl (fun acc a => List_insert acc a) init = init ++ l := by
  induction l generalizing init with
  | nil => simp
  | cons a l ih =>
    rw [List.foldl_cons, ih]
    simp [List_insert]

theorem takeWhile_isSome_terminated (E : List String) (rest : List CStr) :
    (E.map some ++ none :: rest).takeWhile Option.isSome = E.map some := by
  induction E with
  | nil => simp [List.takeWhile]
  | cons a E ih => simp [List.takeWhile, ih]

theorem run_command_args_eq (exe : Text_t) (arg_list : List Text_t) :
    run_command_args exe arg_list = some exe :: arg_list.map some ++ [none] := by
  unfold run_command_args
  simp only [foldl_List_insert]
  simp [List_insert, Text_as_c_string]

theorem command_by_line_args_eq (exe : Text_t) (arg_list : List Text_t) :
    command_by_line_args exe arg_list = some exe :: arg_list.map some ++ [none] := by
  unfold command_by_line_args
  simp only [foldl_List_insert]
  simp [List_insert, Text_as_c_string]

theorem spawn_vectors_append_spawn (pre : List Call) (b : Bool) (e : String)
    (a : List FileAction) (args env : List CStr) (post : List Call)
    (hpre : spawn_vectors pre = none) :
    spawn_vectors (pre ++ Call.posix_spawn b e a args env :: post) = some (args, env) := by
  induction pre with
  | nil => simp [spawn_vectors]
  | cons c pre ih =>
    cases c <;> simp_all [spawn_vectors]

/-! ## Every stage of `run_command` only adds calls to the trace -/

theorem mux_stdin_write_trace (ev : Ready) (s : Locals) (d : Bool) :
    ∃ post, (mux_stdin_write ev s d).1.trace = s.trace ++ post := by
  unfold mux_stdin_write
  simp only [Locals.call]
  split_ifs
  · exact ⟨_, rfl⟩
  · exact ⟨_, by simp only [List.append_assoc]; rfl⟩
  · exact ⟨_, rfl⟩
  · exact ⟨[], by simp⟩

theorem mux_stdin_close_trace (s : Locals) :
    ∃ post, (mux_stdin_close s).trace = s.trace ++ post := by
  unfold mux_stdin_close
  simp only [Locals.call]
  split_ifs
  · exact ⟨_, rfl⟩
  · exact ⟨[], by simp⟩

theorem mux_stdin_trace (ev : Ready) (s : Locals) (d : Bool) :
    ∃ post, (mux_stdin ev s d).1.trace = s.trace ++ post := by
  unfold mux_stdin
  split_ifs
  · obtain ⟨p1, h1⟩ := mux_stdin_write_trace ev s d
    obtain ⟨p2, h2⟩ := mux_stdin_close_trace (mux_stdin_write ev s d).1
    exact ⟨p1 ++ p2, by simp only [h2, h1, List.append_assoc]⟩
  · exact ⟨[], by simp⟩

theorem mux_stdout_trace (ev : Ready) (s : Locals) (d : Bool) :
    ∃ post, (mux_stdout ev s d).1.trace = s.trace ++ post := by
  unfold mux_stdout
  simp only [Locals.call]
  split
  · exact ⟨[], by simp⟩
  · split_ifs
    · exact ⟨_, by simp only [List.append_assoc]; rfl⟩
    · exact ⟨_, rfl⟩
    · exact ⟨[], by simp⟩

theorem mux_stderr_trace (ev : Ready) (s : Locals) (d : Bool) :
    ∃ post, (mux_stderr ev s d).1.trace = s.trace ++ post := by
  unfold mux_stderr
  simp only [Locals.call]
  split
  · exact ⟨[], by simp⟩
  · split_ifs
    · exact ⟨_, by simp only [List.append_assoc]; rfl⟩
    · exact ⟨_, rfl⟩
    · exact ⟨[], by simp⟩

theorem mux_iter_trace (ev : Ready) (s : Locals) :
    ∃ post, (mux_iter ev s).1.trace = s.trace ++ post := by
  unfold mux_iter
  obtain ⟨p1, h1⟩ := mux_stdin_trace ev (s.call (.poll [s.pollfds0, s.pollfds1, s.pollfds2])) false
  obtain ⟨p2, h2⟩ := mux_stdout_trace ev
    (mux_stdin ev (s.call (.poll [s.pollfds0, s.pollfds1, s.pollfds2])) false).1
    (mux_stdin ev (s.call (.poll [s.pollfds0, s.pollfds1, s.pollfds2])) false).2
  obtain ⟨p3, h3⟩ := mux_stderr_trace ev
    (mux_stdout ev (mux_stdin ev (s.call (.poll [s.pollfds0, s.pollfds1, s.pollfds2])) false).1
      (mux_stdin ev (s.call (.poll [s.pollfds0, s.pollfds1, s.pollfds2])) false).2).1
    (mux_stdout ev (mux_stdin ev (s.call (.poll [s.pollfds0, s.pollfds1, s.pollfds2])) false).1
      (mux_stdin ev (s.call (.poll [s.pollfds0, s.pollfds1, s.pollfds2])) false).2).2
  refine ⟨[.poll [s.pollfds0, s.pollfds1, s.pollfds2]] ++ p1 ++ p2 ++ p3, ?_⟩
  dsimp only
  rw [h3, h2, h1]
  simp only [Locals.call, List.append_assoc]

theorem mux_loop_trace (polls : List Ready) (s : Locals) :
    ∃ post, (mux_loop polls s).1.trace = s.trace ++ post := by
  induction polls generalizing s with
  | nil =>
    unfold mux_loop
    split_ifs
    · exact ⟨_, rfl⟩
    · exact ⟨[], by simp⟩
  | cons ev rest ih =>
    unfold mux_loop
    obtain ⟨p1, h1⟩ := mux_iter_trace ev s
    dsimp only
    split_ifs
    · exact ⟨_, by simp only [Locals.call, List.append_assoc]; rfl⟩
    · exact ⟨p1, h1⟩
    · obtain ⟨p2, h2⟩ := ih (mux_iter ev s).1
      exact ⟨p1 ++ p2, by simp only [h2, h1, List.append_assoc]⟩
    · exact ⟨[], by simp⟩

theorem wait_loop_trace (pid : Nat) (waits : List WaitResult) (r : Reap) :
    ∃ post, (wait_loop pid waits r).1.trace = r.trace ++ post := by
  induction waits generalizing r with
  | nil => exact ⟨[.waitpid pid], by simp only [wait_loop]⟩
  | cons wr rest ih =>
    cases wr with
    | reaped st => exact ⟨[.waitpid pid], by simp only [wait_loop]⟩
    | failed e =>
      simp only [wait_loop]
      split_ifs
      · exact ⟨_, rfl⟩
      · obtain ⟨p, h⟩ := ih (Reap.mk r.status e (r.trace ++ [.waitpid pid] ++ [.kill pid SIGCONT]))
        exact ⟨_, by rw [h]; simp only [List.append_assoc]; rfl⟩
      · obtain ⟨p, h⟩ := ih (Reap.mk r.status e (r.trace ++ [.waitpid pid]))
        exact ⟨_, by rw [h]; simp only [List.append_assoc]; rfl⟩
      · exact ⟨_, rfl⟩

theorem spawn_vectors_append (a b : List Call) (v : List CStr × List CStr)
    (h : spawn_vectors a = some v) : spawn_vectors (a ++ b) = some v := by
  induction a with
  | nil => simp [spawn_vectors] at h
  | cons c a ih =>
    cases c <;> simp_all [spawn_vectors]

theorem run_command_cleanup_trace (s : Locals) (trace : List Call) :
    ∃ post, run_command_cleanup s trace = trace ++ post := by
  unfold run_command_cleanup
  dsimp only
  split_ifs <;> first
    | exact ⟨[], (List.append_nil _).symm⟩
    | exact ⟨_, rfl⟩
    | (simp only [List.append_assoc]; exact ⟨_, rfl⟩)

theorem run_command_parent_trace (trace : List Call) (input_bytes : Option (List Byte))
    (want_output want_error : Bool) :
    ∃ post, (run_command_parent trace input_bytes want_output want_error).trace
      = trace ++ post := by
  unfold run_command_parent
  dsimp only
  split_ifs <;> first
    | exact ⟨[], (List.append_nil _).symm⟩
    | exact ⟨_, rfl⟩
    | (simp only [List.append_assoc]; exact ⟨_, rfl⟩)

/-- The trace of `run_command` starts with the pipes and the spawn call. -/
theorem run_command_trace_start (w : World) (environ : List CStr) (t : Thread)
    (exe : Text_t) (arg_list : List Text_t) (env_table : Table_t)
    (input_bytes : Option (List Byte)) (want_output want_error : Bool) :
    ∃ post, (run_command w environ t exe arg_list env_table input_bytes
        want_output want_error).trace
      = run_command_pipes input_bytes want_output want_error ++
        run_command_spawn environ exe arg_list env_table input_bytes want_output want_error
          :: post := by
  obtain ⟨p1, h1⟩ := run_command_parent_trace
    (run_command_pipes input_bytes want_output want_error ++
      [run_command_spawn environ exe arg_list env_table input_bytes want_output want_error])
    input_bytes want_output want_error
  obtain ⟨p2, h2⟩ := mux_loop_trace w.polls (run_command_parent
    (run_command_pipes input_bytes want_output want_error ++
      [run_command_spawn environ exe arg_list env_table input_bytes want_output want_error])
    input_bytes want_output want_error)
  unfold run_command
  dsimp only
  split_ifs
  · exact ⟨[], by simp⟩
  · exact ⟨p1 ++ p2, by rw [h2, h1]; simp⟩
  · obtain ⟨p3, h3⟩ := wait_loop_trace w.spawn_pid w.waits
      (Reap.mk 0 (w.spawn_errno.getD (run_command_signals t).1.errno) (mux_loop w.polls (run_command_parent
        (run_command_pipes input_bytes want_output want_error ++
          [run_command_spawn environ exe arg_list env_table input_bytes want_output want_error])
        input_bytes want_output want_error)).1.trace)
    exact ⟨p1 ++ p2 ++ p3, by rw [h3, h2, h1]; simp⟩
  · obtain ⟨p3, h3⟩ := wait_loop_trace w.spawn_pid w.waits
      (Reap.mk 0 (w.spawn_errno.getD (run_command_signals t).1.errno) (mux_loop w.polls (run_command_parent
        (run_command_pipes input_bytes want_output want_error ++
          [run_command_spawn environ exe arg_list env_table input_bytes want_output want_error])
        input_bytes want_output want_error)).1.trace)
    obtain ⟨p4, h4⟩ := run_command_cleanup_trace (mux_loop w.polls (run_command_parent
        (run_command_pipes input_bytes want_output want_error ++
          [run_command_spawn environ exe arg_list env_table input_bytes want_output want_error])
        input_bytes want_output want_error)).1 (wait_loop w.spawn_pid w.waits
      (Reap.mk 0 (w.spawn_errno.getD (run_command_signals t).1.errno) (mux_loop w.polls (run_command_parent
        (run_command_pipes input_bytes want_output want_error ++
          [run_command_spawn environ exe arg_list env_table input_bytes want_output want_error])
        input_bytes want_output want_error)).1.trace)).1.trace
    exact ⟨p1 ++ p2 ++ p3 ++ p4, by rw [h4, h3, h2, h1]; simp⟩

theorem spawn_vectors_pipes (input_bytes : Option (List Byte)) (want_output want_error : Bool) :
    spawn_vectors (run_command_pipes input_bytes want_output want_error) = none := by
  cases input_bytes <;> cases want_output <;> cases want_error <;> rfl

theorem run_command_spawn_vectors (w : World) (environ : List CStr) (t : Thread)
    (exe : Text_t) (arg_list : List Text_t) (env_table : Table_t)
    (input_bytes : Option (List Byte)) (want_output want_error : Bool) :
    spawn_vectors (run_command w environ t exe arg_list env_table input_bytes
        want_output want_error).trace
      = some (run_command_args exe arg_list, run_command_env environ env_table) := by
  obtain ⟨post, h⟩ := run_command_trace_start w environ t exe arg_list env_table input_bytes
    want_output want_error
  rw [h]
  exact spawn_vectors_append_spawn _ _ _ _ _ _ _ (spawn_vectors_pipes _ _ _)

theorem command_by_line_spawn_vectors (w : LineWorld) (environ : List CStr)
    (exe : Text_t) (arg_list : List Text_t) (env_table : Table_t) :
    spawn_vectors (command_by_line w environ exe arg_list env_table).2
      = some (command_by_line_args exe arg_list, command_by_line_env environ env_table) := by
  unfold command_by_line
  dsimp only
  split_ifs <;> simp [spawn_vectors]

theorem run_command_env_eq (E : List String) (env_table : Table_t) :
    run_command_env (E.map some ++ [none]) env_table
      = if env_table.entries.isEmpty then E.map some ++ [none]
        else E.map some
          ++ env_table.entries.map (fun kv => some (kv.1 ++ "=" ++ kv.2)) ++ [none] := by
  unfold run_command_env
  cases h : env_table.entries with
  | nil => simp
  | cons kv rest =>
    simp only [List.length_cons, gt_iff_lt, Nat.zero_lt_succ, if_true, foldl_List_insert,
      foldl_List_insert_self, takeWhile_isSome_terminated, List.isEmpty_cons,
      Bool.false_eq_true, if_false]
    simp [List_insert, String_]

theorem command_by_line_env_eq (E : List String) (env_table : Table_t) :
    command_by_line_env (E.map some ++ [none]) env_table
      = if env_table.entries.isEmpty then E.map some ++ [none]
        else E.map some
          ++ env_table.entries.map (fun kv => some (kv.1 ++ "=" ++ kv.2)) ++ [none] := by
  unfold command_by_line_env
  cases h : env_table.entries with
  | nil => simp
  | cons kv rest =>
    simp only [List.length_cons, gt_iff_lt, Nat.zero_lt_succ, if_true, foldl_List_insert,
      foldl_List_insert_self, takeWhile_isSome_terminated, List.isEmpty_cons,
      Bool.false_eq_true, if_false]
    simp [List_insert, String_]

/-! ## C7, C8: the vectors handed to the spawn call -/

/-- C7: for every inherited environment list `E` (held in `environ` with its `NULL`
terminator) and every override table `T`, the environment that `run_command` and
`command_by_line` hand to the spawn call is `environ` itself when `T` has no entries, and
otherwise the entries of `E` in their order, then `key ++ "=" ++ value` for each entry of
`T` in table order, then one `NULL`. -/
theorem child_environment (w : World) (lw : LineWorld) (t : Thread) (exe : Text_t)
    (arg_list : List Text_t) (input_bytes : Option (List Byte)) (want_output want_error : Bool)
    (E : List String) (T : Table_t) :
    (spawn_vectors (run_command w (E.map some ++ [none]) t exe arg_list T input_bytes
        want_output want_error).trace).map Prod.snd
      = some (if T.entries.isEmpty then E.map some ++ [none]
          else E.map some ++ T.entries.map (fun kv => some (kv.1 ++ "=" ++ kv.2)) ++ [none])
    ∧ (spawn_vectors (command_by_line lw (E.map some ++ [none]) exe arg_list T).2).map Prod.snd
      = some (if T.entries.isEmpty then E.map some ++ [none]
          else E.map some ++ T.entries.map (fun kv => some (kv.1 ++ "=" ++ kv.2)) ++ [none]) := by
  rw [run_command_spawn_vectors, command_by_line_spawn_vectors]
  simp only [Option.map_some', run_command_env_eq, command_by_line_env_eq, and_self]

/-- C8: for every executable text and every argument list (the empty one included), the
argument vector that `run_command` and `command_by_line` hand to the spawn call is the
executable, then the arguments in their order and each as it was given, then `NULL`:
`n + 2` entries for `n` arguments. -/
theorem argument_vector (w : World) (lw : LineWorld) (environ : List CStr) (t : Thread)
    (exe : Text_t) (arg_list : List Text_t) (T : Table_t) (input_bytes : Option (List Byte))
    (want_output want_error : Bool) :
    (spawn_vectors (run_command w environ t exe arg_list T input_bytes
        want_output want_error).trace).map Prod.fst
      = some (some exe :: arg_list.map some ++ [none])
    ∧ (spawn_vectors (command_by_line lw environ exe arg_list T).2).map Prod.fst
      = some (some exe :: arg_list.map some ++ [none])
    ∧ (some exe :: arg_list.map some ++ [none] : List CStr).length = arg_list.length + 2 := by
  rw [run_command_spawn_vectors, command_by_line_spawn_vectors]
  simp [run_command_args_eq, command_by_line_args_eq]

/-! ## The bytes that cross the stdin and stdout pipes -/

theorem written_bytes_append (a b : List Call) :
    written_bytes (a ++ b) = written_bytes a ++ written_bytes b := by
  induction a with
  | nil => rfl
  | cons c a ih => simp [written_bytes, ih]

theorem read_bytes_append (a b : List Call) :
    read_bytes (a ++ b) = read_bytes a ++ read_bytes b := by
  induction a with
  | nil => rfl
  | cons c a ih => simp [read_bytes, ih]

/-- The invariant of the loop for a payload, kept by every stage: what was written,
followed by what is still to be written, is the payload; the output buffer holds what
was read. -/
theorem mux_stdin_write_bytes (payload : List Byte) (ev : Ready) (s : Locals) (d : Bool)
    (hw : written_bytes s.trace ++ s.input_bytes.getD [] = payload)
    (hr : s.output_bytes = some (read_bytes s.trace)) :
    written_bytes (mux_stdin_write ev s d).1.trace
        ++ (mux_stdin_write ev s d).1.input_bytes.getD [] = payload
    ∧ (mux_stdin_write ev s d).1.output_bytes
        = some (read_bytes (mux_stdin_write ev s d).1.trace) := by
  unfold mux_stdin_write
  simp only [Locals.call]
  split_ifs with h1 h2 h3
  · refine ⟨?_, ?_⟩
    · simp only [written_bytes_append, written_bytes, written_of, h2, if_true,
        List.append_nil, Option.getD_some, List.append_assoc, List.take_append_drop]
      exact hw
    · simp [read_bytes_append, read_bytes, read_of, hr]
  · refine ⟨?_, ?_⟩
    · simp only [written_bytes_append, written_bytes, written_of, h2, if_false,
        List.append_nil]
      exact hw
    · simp [read_bytes_append, read_bytes, read_of, hr]
  · refine ⟨?_, ?_⟩
    · simp only [written_bytes_append, written_bytes, written_of, h2, if_false,
        List.append_nil]
      exact hw
    · simp [read_bytes_append, read_bytes, read_of, hr]
  · exact ⟨hw, hr⟩

theorem mux_stdin_close_bytes (payload : List Byte) (s : Locals)
    (hw : written_bytes s.trace ++ s.input_bytes.getD [] = payload)
    (hr : s.output_bytes = some (read_bytes s.trace)) :
    written_bytes (mux_stdin_close s).trace ++ (mux_stdin_close s).input_bytes.getD [] = payload
    ∧ (mux_stdin_close s).output_bytes = some (read_bytes (mux_stdin_close s).trace) := by
  unfold mux_stdin_close
  simp only [Locals.call]
  split_ifs
  · refine ⟨?_, ?_⟩
    · simp only [written_bytes_append, written_bytes, written_of, List.append_nil]
      exact hw
    · simp [read_bytes_append, read_bytes, read_of, hr]
  · exact ⟨hw, hr⟩

theorem mux_stdin_bytes (payload : List Byte) (ev : Ready) (s : Locals) (d : Bool)
    (hw : written_bytes s.trace ++ s.input_bytes.getD [] = payload)
    (hr : s.output_bytes = some (read_bytes s.trace)) :
    written_bytes (mux_stdin ev s d).1.trace ++ (mux_stdin ev s d).1.input_bytes.getD []
        = payload
    ∧ (mux_stdin ev s d).1.output_bytes = some (read_bytes (mux_stdin ev s d).1.trace) := by
  unfold mux_stdin
  split_ifs
  · obtain ⟨h1, h2⟩ := mux_stdin_write_bytes payload ev s d hw hr
    exact mux_stdin_close_bytes payload _ h1 h2
  · exact ⟨hw, hr⟩

theorem mux_stdout_bytes (payload : List Byte) (ev : Ready) (s : Locals) (d : Bool)
    (hw : written_bytes s.trace ++ s.input_bytes.getD [] = payload)
    (hr : s.output_bytes = some (read_bytes s.trace)) :
    written_bytes (mux_stdout ev s d).1.trace ++ (mux_stdout ev s d).1.input_bytes.getD []
        = payload
    ∧ (mux_stdout ev s d).1.output_bytes = some (read_bytes (mux_stdout ev s d).1.trace) := by
  unfold mux_stdout
  simp only [Locals.call]
  split
  · exact ⟨hw, hr⟩
  · rename_i out hout
    rw [hout] at hr
    have hout2 : out = read_bytes s.trace := Option.some.inj hr
    split_ifs with h1 h2
    · refine ⟨?_, ?_⟩
      · simp only [written_bytes_append, written_bytes, written_of, List.append_nil]
        exact hw
      · have h3 : ¬ read_ret ev.read_out > 0 := not_lt.mpr h2
        simp [read_bytes_append, read_bytes, read_of, h3, hout, hout2]
    · refine ⟨?_, ?_⟩
      · simp only [written_bytes_append, written_bytes, written_of, List.append_nil]
        exact hw
      · have h3 : read_ret ev.read_out > 0 := not_le.mp h2
        simp [read_bytes_append, read_bytes, read_of, h3, hout2]
    · exact ⟨hw, by rw [hout, hout2]⟩

theorem mux_stderr_bytes (payload : List Byte) (ev : Ready) (s : Locals) (d : Bool)
    (hw : written_bytes s.trace ++ s.input_bytes.getD [] = payload)
    (hr : s.output_bytes = some (read_bytes s.trace)) :
    written_bytes (mux_stderr ev s d).1.trace ++ (mux_stderr ev s d).1.input_bytes.getD []
        = payload
    ∧ (mux_stderr ev s d).1.output_bytes = some (read_bytes (mux_stderr ev s d).1.trace) := by
  unfold mux_stderr
  simp only [Locals.call]
  split
  · exact ⟨hw, hr⟩
  · split_ifs
    · refine ⟨?_, ?_⟩
      · simp only [written_bytes_append, written_bytes, written_of, List.append_nil]
        exact hw
      · simp [read_bytes_append, read_bytes, read_of, hr]
    · refine ⟨?_, ?_⟩
      · simp only [written_bytes_append, written_bytes, written_of, List.append_nil]
        exact hw
      · simp [read_bytes_append, read_bytes, read_of, hr]
    · exact ⟨hw, hr⟩

theorem mux_iter_bytes (payload : List Byte) (ev : Ready) (s : Locals)
    (hw : written_bytes s.trace ++ s.input_bytes.getD [] = payload)
    (hr : s.output_bytes = some (read_bytes s.trace)) :
    written_bytes (mux_iter ev s).1.trace ++ (mux_iter ev s).1.input_bytes.getD [] = payload
    ∧ (mux_iter ev s).1.output_bytes = some (read_bytes (mux_iter ev s).1.trace) := by
  unfold mux_iter
  dsimp only
  have h0 : written_bytes (s.call (.poll [s.pollfds0, s.pollfds1, s.pollfds2])).trace
        ++ (s.call (.poll [s.pollfds0, s.pollfds1, s.pollfds2])).input_bytes.getD [] = payload
      ∧ (s.call (.poll [s.pollfds0, s.pollfds1, s.pollfds2])).output_bytes
        = some (read_bytes (s.call (.poll [s.pollfds0, s.pollfds1, s.pollfds2])).trace) := by
    simp only [Locals.call]
    refine ⟨?_, ?_⟩
    · simp only [written_bytes_append, written_bytes, written_of, List.append_nil]
      exact hw
    · simp [read_bytes_append, read_bytes, read_of, hr]
  obtain ⟨a1, a2⟩ := mux_stdin_bytes payload ev _ false h0.1 h0.2
  obtain ⟨b1, b2⟩ := mux_stdout_bytes payload ev _
    (mux_stdin ev (s.call (.poll [s.pollfds0, s.pollfds1, s.pollfds2])) false).2 a1 a2
  exact mux_stderr_bytes payload ev _ _ b1 b2

theorem mux_loop_bytes (payload : List Byte) (polls : List Ready) (s : Locals)
    (hw : written_bytes s.trace ++ s.input_bytes.getD [] = payload)
    (hr : s.output_bytes = some (read_bytes s.trace)) :
    written_bytes (mux_loop polls s).1.trace ++ (mux_loop polls s).1.input_bytes.getD []
        = payload
    ∧ (mux_loop polls s).1.output_bytes = some (read_bytes (mux_loop polls s).1.trace) := by
  induction polls generalizing s with
  | nil =>
    unfold mux_loop
    split_ifs
    · simp only [Locals.call]
      refine ⟨?_, ?_⟩
      · simp only [written_bytes_append, written_bytes, written_of, List.append_nil]
        exact hw
      · simp [read_bytes_append, read_bytes, read_of, hr]
    · exact ⟨hw, hr⟩
  | cons ev rest ih =>
    unfold mux_loop
    dsimp only
    obtain ⟨a1, a2⟩ := mux_iter_bytes payload ev s hw hr
    split_ifs
    · simp only [Locals.call]
      refine ⟨?_, ?_⟩
      · simp only [written_bytes_append, written_bytes, written_of, List.append_nil]
        exact hw
      · simp [read_bytes_append, read_bytes, read_of, hr]
    · exact ⟨a1, a2⟩
    · exact ih _ a1 a2
    · exact ⟨hw, hr⟩

theorem wait_loop_bytes (pid : Nat) (waits : List WaitResult) (r : Reap) :
    written_bytes (wait_loop pid waits r).1.trace = written_bytes r.trace
    ∧ read_bytes (wait_loop pid waits r).1.trace = read_bytes r.trace := by
  induction waits generalizing r with
  | nil => simp [wait_loop, written_bytes_append, read_bytes_append, written_bytes, read_bytes,
      written_of, read_of]
  | cons wr rest ih =>
    cases wr with
    | reaped st => simp [wait_loop, written_bytes_append, read_bytes_append, written_bytes,
        read_bytes, written_of, read_of]
    | failed e =>
      simp only [wait_loop]
      split_ifs
      · simp [written_bytes_append, read_bytes_append, written_bytes, read_bytes,
          written_of, read_of]
      · rw [(ih _).1, (ih _).2]
        simp [written_bytes_append, read_bytes_append, written_bytes, read_bytes,
          written_of, read_of]
      · rw [(ih _).1, (ih _).2]
        simp [written_bytes_append, read_bytes_append, written_bytes, read_bytes,
          written_of, read_of]
      · simp [written_bytes_append, read_bytes_append, written_bytes, read_bytes,
          written_of, read_of]

theorem run_command_cleanup_bytes (s : Locals) (trace : List Call) :
    written_bytes (run_command_cleanup s trace) = written_bytes trace
    ∧ read_bytes (run_command_cleanup s trace) = read_bytes trace := by
  unfold run_command_cleanup
  dsimp only
  split_ifs <;>
    simp [written_bytes_append, read_bytes_append, written_bytes, read_bytes,
      written_of, read_of]

theorem run_command_parent_bytes (environ : List CStr) (exe : Text_t) (arg_list : List Text_t)
    (env_table : Table_t) (input_bytes : Option (List Byte)) (want_output want_error : Bool) :
    written_bytes (run_command_parent
        (run_command_pipes input_bytes want_output want_error ++
          [run_command_spawn environ exe arg_list env_table input_bytes want_output want_error])
        input_bytes want_output want_error).trace = []
    ∧ read_bytes (run_command_parent
        (run_command_pipes input_bytes want_output want_error ++
          [run_command_spawn environ exe arg_list env_table input_bytes want_output want_error])
        input_bytes want_output want_error).trace = [] := by
  cases input_bytes <;> cases want_output <;> cases want_error <;>
    simp [run_command_parent, run_command_pipes, run_command_spawn, written_bytes_append,
      read_bytes_append, written_bytes, read_bytes, written_of, read_of]

/-! ## C1, C4: the spawn fails -/

/-- C1: at a call whose spawn fails, for a caller that entered with the default handling
of `SIGINT` and `SIGQUIT` and with `SIGCHLD` not blocked, `run_command` returns -1 with
`SIGINT` and `SIGQUIT` ignored and `SIGCHLD` blocked: the settings are not those of
entry. -/
theorem spawn_failure_keeps_signal_changes :
    (run_command world_spawn_fails [none] thread_default "missing" [] ⟨[]⟩
        none false false).returned = some (-1)
    ∧ thread_default.sigint.sa_handler = .SIG_DFL
    ∧ (run_command world_spawn_fails [none] thread_default "missing" [] ⟨[]⟩
        none false false).thread.sigint.sa_handler = .SIG_IGN
    ∧ thread_default.sigquit.sa_handler = .SIG_DFL
    ∧ (run_command world_spawn_fails [none] thread_default "missing" [] ⟨[]⟩
        none false false).thread.sigquit.sa_handler = .SIG_IGN
    ∧ thread_default.sigmask SIGCHLD = false
    ∧ (run_command world_spawn_fails [none] thread_default "missing" [] ⟨[]⟩
        none false false).thread.sigmask SIGCHLD = true := by
  decide

/-- C2: at a call with stdout capture whose child writes nothing, the read end of the
stdout pipe is passed to `close` twice: at end of file inside the loop, and again in
the cleanup after the wait. -/
theorem stdout_read_end_closed_twice :
    (run_command world_silent_child [none] thread_default "true" [] ⟨[]⟩
        none true false).returned = some 0
    ∧ closes (run_command world_silent_child [none] thread_default "true" [] ⟨[]⟩
        none true false).trace
      = [(.child_outpipe, .WRITE_END), (.child_outpipe, .READ_END), (.child_outpipe, .READ_END)]
    ∧ closes (before_wait (run_command world_silent_child [none] thread_default "true" [] ⟨[]⟩
        none true false).trace)
      = [(.child_outpipe, .WRITE_END), (.child_outpipe, .READ_END)] := by
  decide

/-- C3: at a call with a present, empty input and no capture, the stdin pipe is created,
and `waitpid` is called while the parent has closed only the read end of it: the write
end is closed after the wait, and when the child reads its input to the end the wait
never returns and the write end is never closed. -/
theorem empty_input_waits_with_stdin_open :
    Call.pipe .child_inpipe ∈ (run_command world_child_exits [none] thread_default "true" []
        ⟨[]⟩ (some []) false false).trace
    ∧ (run_command world_child_exits [none] thread_default "true" [] ⟨[]⟩
        (some []) false false).returned = some 0
    ∧ closes (before_wait (run_command world_child_exits [none] thread_default "true" [] ⟨[]⟩
        (some []) false false).trace) = [(.child_inpipe, .READ_END)]
    ∧ closes (run_command world_child_exits [none] thread_default "true" [] ⟨[]⟩
        (some []) false false).trace = [(.child_inpipe, .READ_END), (.child_inpipe, .WRITE_END)]
    ∧ (run_command world_child_reads_stdin [none] thread_default "cat" [] ⟨[]⟩
        (some []) false false).returned = none
    ∧ Call.waitpid 7 ∈ (run_command world_child_reads_stdin [none] thread_default "cat" []
        ⟨[]⟩ (some []) false false).trace
    ∧ closes (run_command world_child_reads_stdin [none] thread_default "cat" [] ⟨[]⟩
        (some []) false false).trace = [(.child_inpipe, .READ_END)] := by
  decide

/-- C10: at a call with stdout capture, the descriptor registered in `pollfds[1]` is the
write end of the stdout pipe, which the parent has closed before the first `poll`; the
`read` that follows is made on the read end, which is not registered. -/
theorem stdout_write_end_registered :
    first_poll (run_command world_silent_child [none] thread_default "true" [] ⟨[]⟩
        none true false).trace
      = some [{ fd := none, events := .zero },
              { fd := some (.child_outpipe, .WRITE_END), events := .POLLIN },
              { fd := none, events := .zero }]
    ∧ (.child_outpipe, .WRITE_END) ∈ closes (before_poll (run_command world_silent_child [none]
        thread_default "true" [] ⟨[]⟩ none true false).trace)
    ∧ Call.read (.child_outpipe, .READ_END) [] 0 ∈ (run_command world_silent_child [none]
        thread_default "true" [] ⟨[]⟩ none true false).trace := by
  decide

/-! ## C5: the wait -/

/-- C5: for a child that exits with code 3, when the first `waitpid` is interrupted,
`run_command` makes no second `waitpid` and returns the status 0, which decodes to exit
code 0; with no interruption it returns the status that decodes to 3. -/
theorem interrupted_wait_not_retried :
    (run_command world_wait_interrupted [none] thread_default "sh" ["-c", "exit 3"] ⟨[]⟩
        none false false).returned = some 0
    ∧ WEXITSTATUS 0 = 0
    ∧ ((run_command world_wait_interrupted [none] thread_default "sh" ["-c", "exit 3"] ⟨[]⟩
        none false false).trace.filter (fun c => c == Call.waitpid 7)).length = 1
    ∧ (run_command world_wait_plain [none] thread_default "sh" ["-c", "exit 3"] ⟨[]⟩
        none false false).returned = some (3 * 256)
    ∧ WEXITSTATUS (3 * 256) = 3 := by
  decide

/-! ## C6: the multiplexing loop -/

theorem payload_1MiB_length : payload_1MiB.length = 1048576 := by
  unfold payload_1MiB
  exact List.length_replicate _ _

theorem payload_1MiB_ne_nil : payload_1MiB ≠ [] := by
  intro h
  have hlen := payload_1MiB_length
  rw [h] at hlen
  simp at hlen

/-- A `write` that blocks in the first iteration, for any payload with at least one byte:
the run ends in that `write`. -/
theorem run_command_write_blocks (payload : List Byte) (hne : payload ≠ []) :
    (run_command world_echo_blocks [none] thread_default "cat" [] ⟨[]⟩
        (some payload) true false).returned = none
    ∧ (run_command world_echo_blocks [none] thread_default "cat" [] ⟨[]⟩
        (some payload) true false).trace.getLast?
      = some (.write_blocked (.child_inpipe, .WRITE_END) payload)
    ∧ written_bytes (run_command world_echo_blocks [none] thread_default "cat" [] ⟨[]⟩
        (some payload) true false).trace = []
    ∧ read_bytes (run_command world_echo_blocks [none] thread_default "cat" [] ⟨[]⟩
        (some payload) true false).trace = []
    ∧ (run_command world_echo_blocks [none] thread_default "cat" [] ⟨[]⟩
        (some payload) true false).output_bytes = some []
    ∧ (run_command world_echo_blocks [none] thread_default "cat" [] ⟨[]⟩
        (some payload) true false).output_bytes ≠ some payload := by
  have hpos : 0 < payload.length := List.length_pos.mpr hne
  have hrun : mux_loop world_echo_blocks.polls
      (run_command_parent
        (run_command_pipes (some payload) true false ++
          [run_command_spawn [none] "cat" [] ⟨[]⟩ (some payload) true false])
        (some payload) true false)
      = (((run_command_parent
        (run_command_pipes (some payload) true false ++
          [run_command_spawn [none] "cat" [] ⟨[]⟩ (some payload) true false])
        (some payload) true false).call
          (.poll [{ fd := some (.child_inpipe, .WRITE_END), events := .POLLOUT },
                  { fd := some (.child_outpipe, .WRITE_END), events := .POLLIN },
                  { fd := none, events := .zero }])).call
          (.write_blocked (.child_inpipe, .WRITE_END) payload), false) := by
    simp [world_echo_blocks, mux_loop, mux_cond, mux_write_blocks, run_command_parent,
      Locals.input_length, Locals.call, hpos]
  have hout : (some ([] : List Byte)) ≠ some payload := by
    intro h
    exact hne (Option.some.inj h).symm
  unfold run_command
  dsimp only
  rw [if_neg (by decide : ¬ world_echo_blocks.spawn_ret ≠ 0), hrun]
  simp [Locals.call, run_command_parent, run_command_pipes, run_command_spawn,
    written_bytes_append, read_bytes_append, written_bytes, read_bytes, written_of, read_of,
    hout]

/-- C6: at a call that feeds 1 MiB to an echoing child with stdout capture, the first
iteration of the loop offers the whole payload to `write` on the blocking stdin pipe
and the `write` does not return: `run_command` does not return, no `read` is made, no
byte is counted as written, and the capture stays empty. -/
theorem large_echo_blocks_in_write :
    payload_1MiB.length = 1048576
    ∧ (run_command world_echo_blocks [none] thread_default "cat" [] ⟨[]⟩
        (some payload_1MiB) true false).returned = none
    ∧ (run_command world_echo_blocks [none] thread_default "cat" [] ⟨[]⟩
        (some payload_1MiB) true false).trace.getLast?
      = some (.write_blocked (.child_inpipe, .WRITE_END) payload_1MiB)
    ∧ written_bytes (run_command world_echo_blocks [none] thread_default "cat" [] ⟨[]⟩
        (some payload_1MiB) true false).trace = []
    ∧ read_bytes (run_command world_echo_blocks [none] thread_default "cat" [] ⟨[]⟩
        (some payload_1MiB) true false).trace = []
    ∧ (run_command world_echo_blocks [none] thread_default "cat" [] ⟨[]⟩
        (some payload_1MiB) true false).output_bytes = some []
    ∧ (run_command world_echo_blocks [none] thread_default "cat" [] ⟨[]⟩
        (some payload_1MiB) true false).output_bytes ≠ some payload_1MiB :=
  ⟨payload_1MiB_length, run_command_write_blocks payload_1MiB payload_1MiB_ne_nil⟩

/-- For every payload given to `run_command` with stdout capture requested, at a call
whose spawn succeeds, and for every script: the bytes written to the child's stdin, in
order, followed by the input left unwritten are the payload, and the capture is the
bytes that the reads on the stdout pipe delivered, in order; so when no input is left
unwritten and what was read is the child's copy of what was written, the capture is the
payload. -/
theorem run_command_bytes_accounted (w : World) (environ : List CStr) (t : Thread)
    (exe : Text_t) (arg_list : List Text_t) (T : Table_t) (payload : List Byte)
    (want_error : Bool) (r : Result)
    (hrun : r = run_command w environ t exe arg_list T (some payload) true want_error)
    (hspawn : w.spawn_ret = 0) :
    written_bytes r.trace ++ r.input_bytes.getD [] = payload
    ∧ r.output_bytes = some (read_bytes r.trace)
    ∧ (r.input_bytes = some [] → read_bytes r.trace = written_bytes r.trace →
        r.output_bytes = some payload) := by
  have hp := run_command_parent_bytes environ exe arg_list T (some payload) true want_error
  have hw0 : written_bytes (run_command_parent
        (run_command_pipes (some payload) true want_error ++
          [run_command_spawn environ exe arg_list T (some payload) true want_error])
        (some payload) true want_error).trace
      ++ (run_command_parent
        (run_command_pipes (some payload) true want_error ++
          [run_command_spawn environ exe arg_list T (some payload) true want_error])
        (some payload) true want_error).input_bytes.getD [] = payload := by
    rw [hp.1]
    rfl
  have hr0 : (run_command_parent
        (run_command_pipes (some payload) true want_error ++
          [run_command_spawn environ exe arg_list T (some payload) true want_error])
        (some payload) true want_error).output_bytes
      = some (read_bytes (run_command_parent
        (run_command_pipes (some payload) true want_error ++
          [run_command_spawn environ exe arg_list T (some payload) true want_error])
        (some payload) true want_error).trace) := by
    rw [hp.2]
    rfl
  obtain ⟨m1, m2⟩ := mux_loop_bytes payload w.polls _ hw0 hr0
  have key : written_bytes r.trace ++ r.input_bytes.getD [] = payload
      ∧ r.output_bytes = some (read_bytes r.trace) := by
    subst hrun
    unfold run_command
    dsimp only
    rw [if_neg (not_not.mpr hspawn)]
    split_ifs
    · exact ⟨m1, m2⟩
    · dsimp only
      rw [(wait_loop_bytes _ _ _).1, (wait_loop_bytes _ _ _).2]
      exact ⟨m1, m2⟩
    all_goals
      dsimp only
      rw [(run_command_cleanup_bytes _ _).1, (run_command_cleanup_bytes _ _).2,
        (wait_loop_bytes _ _ _).1, (wait_loop_bytes _ _ _).2]
      exact ⟨m1, m2⟩
  refine ⟨key.1, key.2, ?_⟩
  intro hin hecho
  have h1 := key.1
  rw [hin] at h1
  simp only [Option.getD_some, List.append_nil] at h1
  rw [key.2, hecho, h1]

/-- The payload `[1, 2, 3]` fed to an echoing child, written in one `write` and read back
in one `read`: the call returns 0 and the capture is the payload. -/
theorem run_command_echo_small :
    (run_command world_echo [none] thread_default "cat" [] ⟨[]⟩
        (some [1, 2, 3]) true false).returned = some 0
    ∧ (run_command world_echo [none] thread_default "cat" [] ⟨[]⟩
        (some [1, 2, 3]) true false).output_bytes = some [1, 2, 3] :=
  ⟨by decide,
   (run_command_bytes_accounted world_echo [none] thread_default "cat" [] ⟨[]⟩ [1, 2, 3] false
    _ rfl (by decide)).2.2 (by decide) (by decide)⟩

/-! ## C9: the line stream -/

theorem getline_split_shape (stream : List Byte) :
    ∃ piece : List Byte, (∀ x ∈ piece, x ≠ 10) ∧
      ((∃ rest, getline_split stream = (piece ++ [10], rest) ∧ stream = piece ++ 10 :: rest)
        ∨ (getline_split stream = (piece, []) ∧ stream = piece)) := by
  induction stream with
  | nil => exact ⟨[], by simp, Or.inr ⟨rfl, rfl⟩⟩
  | cons c cs ih =>
    by_cases hc : c = 10
    · refine ⟨[], by simp, Or.inl ⟨cs, ?_, ?_⟩⟩
      · simp [getline_split, hc]
      · simp [hc]
    · obtain ⟨piece, hp, h⟩ := ih
      refine ⟨c :: piece, ?_, ?_⟩
      · intro x hx
        rcases List.mem_cons.mp hx with h1 | h1
        · rw [h1]; exact hc
        · exact hp x h1
      · rcases h with ⟨rest, h1, h2⟩ | ⟨h1, h2⟩
        · refine Or.inl ⟨rest, ?_, ?_⟩
          · simp [getline_split, hc, h1]
          · rw [h2]; rfl
        · refine Or.inr ⟨?_, ?_⟩
          · simp [getline_split, hc, h1]
          · rw [h2]

theorem spec_lines_nil : spec_lines [] = [] := by
  decide

theorem spec_lines_last_piece (piece : List Byte) (hne : piece ≠ [])
    (hp : ∀ x ∈ piece, x ≠ 10) :
    spec_lines piece = [piece.rdropWhile (fun c => c == 13 || c == 10)] := by
  have h : piece.splitOn 10 = [piece] := by
    unfold List.splitOn
    apply List.splitOnP_eq_single
    intro x hx
    simpa using hp x hx
  unfold spec_lines
  simp [h, hne]

theorem spec_lines_line (piece rest : List Byte) (hp : ∀ x ∈ piece, x ≠ 10) :
    spec_lines (piece ++ 10 :: rest)
      = piece.rdropWhile (fun c => c == 13 || c == 10) :: spec_lines rest := by
  have h : (piece ++ 10 :: rest).splitOn 10 = piece :: rest.splitOn 10 := by
    unfold List.splitOn
    apply List.splitOnP_first
    · intro x hx
      simpa using hp x hx
    · simp
  have hne : rest.splitOn 10 ≠ [] := List.splitOnP_ne_nil _ _
  unfold spec_lines
  rw [h]
  cases hL : rest.splitOn 10 with
  | nil => exact absurd hL hne
  | cons y ys =>
    simp only [List.getLast?_cons_cons, List.dropLast_cons₂]
    split_ifs <;> simp

theorem strip_len_append (l m : List Byte) (n : Nat) (hn : n ≤ l.length) :
    strip_len (l ++ m) n = strip_len l n := by
  induction n with
  | zero => rfl
  | succ k ih =>
    have hk : k < l.length := hn
    simp only [strip_len]
    have hget : (l ++ m).getD k 0 = l.getD k 0 := by
      simp [List.getD_eq_getElem?_getD, List.getElem?_append_left hk]
    rw [hget, ih (Nat.le_of_lt hk)]

theorem strip_len_le (l : List Byte) (n : Nat) : strip_len l n ≤ n := by
  induction n with
  | zero => simp [strip_len]
  | succ k ih =>
    simp only [strip_len]
    split_ifs
    · exact Nat.le_succ_of_le ih
    · exact Nat.le_refl _

theorem take_strip_len (line : List Byte) :
    line.take (strip_len line line.length)
      = line.rdropWhile (fun c => c == 13 || c == 10) := by
  induction line using List.reverseRecOn with
  | nil => simp [strip_len]
  | append_singleton l a ih =>
    have hget : (l ++ [a]).getD l.length 0 = a := by
      simp [List.getD_eq_getElem?_getD]
    rw [List.length_append, List.length_singleton, strip_len, hget, List.rdropWhile_concat]
    by_cases ha : a = 13 ∨ a = 10
    · have hp : (a == 13 || a == 10) = true := by
        rcases ha with h | h <;> simp [h]
      rw [if_pos ha, if_pos hp, strip_len_append l [a] l.length (Nat.le_refl _),
        List.take_append_of_le_length (strip_len_le l l.length), ih]
    · have hp : ¬ (a == 13 || a == 10) = true := by
        simpa using ha
      rw [if_neg ha, if_neg hp]
      simp

theorem pulls_closed (u8_check : List Byte → Option Nat) (k pid : Nat) :
    pulls u8_check k (some { pid := pid, out := none }) = List.replicate k Pull.NONE_TEXT := by
  induction k with
  | zero => rfl
  | succ k ih =>
    simp only [pulls, _next_line, List.replicate_succ]
    rw [ih]

theorem getline_split_ne_nil (stream : List Byte) (h : stream ≠ []) :
    (getline_split stream).1 ≠ [] := by
  cases stream with
  | nil => exact absurd rfl h
  | cons c cs =>
    simp only [getline_split]
    split_ifs <;> simp

theorem next_line_at_end (u8_check : List Byte → Option Nat) (pid : Nat) :
    ∃ pid2, _next_line u8_check (some { pid := pid, out := some [] })
      = (Pull.NONE_TEXT, some { pid := pid2, out := none },
          (_line_reader_cleanup { pid := pid, out := some [] }).2) := by
  by_cases hp : pid = 0
  · exact ⟨pid, by simp [_next_line, getline, getline_split, _line_reader_cleanup, hp]⟩
  · exact ⟨0, by simp [_next_line, getline, getline_split, _line_reader_cleanup, hp]⟩

theorem pulls_at_end (u8_check : List Byte → Option Nat) (k pid : Nat) :
    pulls u8_check k (some { pid := pid, out := some [] })
      = List.replicate k Pull.NONE_TEXT := by
  cases k with
  | zero => rfl
  | succ k =>
    obtain ⟨pid2, h2⟩ := next_line_at_end u8_check pid
    rw [pulls, h2, pulls_closed, List.replicate_succ]

theorem next_line_step (u8_check : List Byte → Option Nat) (pid : Nat) (stream : List Byte)
    (hne : stream ≠ [])
    (hu : u8_check ((getline_split stream).1.rdropWhile (fun c => c == 13 || c == 10)) = none) :
    _next_line u8_check (some { pid := pid, out := some stream })
      = (Pull.text ((getline_split stream).1.rdropWhile (fun c => c == 13 || c == 10)),
          some { pid := pid, out := some (getline_split stream).2 }, []) := by
  have hl : (getline_split stream).1.length ≠ 0 := by
    intro h
    exact getline_split_ne_nil stream hne (List.length_eq_zero.mp h)
  have hpos : ¬ (((getline_split stream).1.length : Nat) : Int) ≤ 0 := by
    omega
  simp only [_next_line, getline, if_neg hl, if_neg hpos, Int.toNat_ofNat, take_strip_len, hu,
    Option.isSome_none, Bool.false_eq_true, if_false]

theorem pulls_lines (u8_check : List Byte → Option Nat) (n : Nat) :
    ∀ (output : List Byte) (pid k : Nat), output.length ≤ n →
      (∀ l ∈ spec_lines output, u8_check l = none) →
      pulls u8_check ((spec_lines output).length + k) (some { pid := pid, out := some output })
        = (spec_lines output).map Pull.text ++ List.replicate k Pull.NONE_TEXT := by
  induction n with
  | zero =>
    intro output pid k hlen _
    have h0 : output = [] := List.length_eq_zero.mp (Nat.le_zero.mp hlen)
    subst h0
    rw [spec_lines_nil, List.length_nil, Nat.zero_add, pulls_at_end]
    rfl
  | succ n ih =>
    intro output pid k hlen hu
    by_cases hne : output = []
    · subst hne
      rw [spec_lines_nil, List.length_nil, Nat.zero_add, pulls_at_end]
      rfl
    · obtain ⟨piece, hp, h⟩ := getline_split_shape output
      rcases h with ⟨rest, h1, h2⟩ | ⟨h1, h2⟩
      · have hs : spec_lines output
            = piece.rdropWhile (fun c => c == 13 || c == 10) :: spec_lines rest := by
          rw [h2]
          exact spec_lines_line piece rest hp
        have hstrip : (getline_split output).1.rdropWhile (fun c => c == 13 || c == 10)
            = piece.rdropWhile (fun c => c == 13 || c == 10) := by
          rw [h1]
          exact List.rdropWhile_concat_pos _ _ _ (by simp)
        have hu1 : u8_check ((getline_split output).1.rdropWhile
            (fun c => c == 13 || c == 10)) = none := by
          rw [hstrip]
          exact hu _ (by rw [hs]; exact List.mem_cons_self _ _)
        have hrest : rest.length ≤ n := by
          have : output.length = piece.length + (rest.length + 1) := by
            rw [h2]; simp
          omega
        have hur : ∀ l ∈ spec_lines rest, u8_check l = none := by
          intro l hl
          exact hu l (by rw [hs]; exact List.mem_cons_of_mem _ hl)
        have step := next_line_step u8_check pid output hne hu1
        rw [hs, List.length_cons, Nat.add_right_comm, pulls, step, hstrip, h1]
        simp only [List.map_cons, List.cons_append]
        rw [ih rest pid k hrest hur]
      · have hpne : piece ≠ [] := by
          rw [← h2]; exact hne
        have hs : spec_lines output = [piece.rdropWhile (fun c => c == 13 || c == 10)] := by
          rw [h2]
          exact spec_lines_last_piece piece hpne hp
        have hstrip : (getline_split output).1.rdropWhile (fun c => c == 13 || c == 10)
            = piece.rdropWhile (fun c => c == 13 || c == 10) := by
          rw [h1]
        have hu1 : u8_check ((getline_split output).1.rdropWhile
            (fun c => c == 13 || c == 10)) = none := by
          rw [hstrip]
          exact hu _ (by rw [hs]; exact List.mem_singleton_self _)
        have step := next_line_step u8_check pid output hne hu1
        rw [hs, List.length_singleton, Nat.add_comm, pulls, step, hstrip, h1, pulls_at_end]
        rfl

theorem command_by_line_child (w : LineWorld) (environ : List CStr) (exe : Text_t)
    (arg_list : List Text_t) (env_table : Table_t) (hspawn : w.spawn_ret = 0) :
    (command_by_line w environ exe arg_list env_table).1
      = some { pid := w.spawn_pid, out := some w.child_stdout } := by
  unfold command_by_line
  dsimp only
  rw [if_neg (not_not.mpr hspawn)]

/-- C9: for every child started by `command_by_line` whose standard output is a finite
byte sequence with well-formed lines (the validator returns `NULL` on each), the
successive pulls of `_next_line` return the lines of the output in order, each without
its trailing carriage returns and line feeds, a last line without line feed included;
every pull after that returns `NONE_TEXT`. -/
theorem line_stream_yields_lines (u8_check : List Byte → Option Nat) (w : LineWorld)
    (environ : List CStr) (exe : Text_t) (arg_list : List Text_t) (env_table : Table_t)
    (k : Nat) (hspawn : w.spawn_ret = 0)
    (hvalid : ∀ l ∈ spec_lines w.child_stdout, u8_check l = none) :
    pulls u8_check ((spec_lines w.child_stdout).length + k)
        (command_by_line w environ exe arg_list env_table).1
      = (spec_lines w.child_stdout).map Pull.text ++ List.replicate k Pull.NONE_TEXT := by
  rw [command_by_line_child w environ exe arg_list env_table hspawn]
  exact pulls_lines u8_check w.child_stdout.length w.child_stdout w.spawn_pid k
    (Nat.le_refl _) hvalid

/-- C9 at the output `"a\nb\r\nc"`: the lines are `"a"`, `"b"`, `"c"`, and five pulls
return them and then `NONE_TEXT` twice. -/
theorem line_stream_yields_lines_witness :
    spec_lines world_three_lines.child_stdout = [[97], [98], [99]]
    ∧ pulls ascii_check 5 (command_by_line world_three_lines [none] "printf"
        ["a\\nb\\r\\nc"] ⟨[]⟩).1
      = [Pull.text [97], Pull.text [98], Pull.text [99], Pull.NONE_TEXT, Pull.NONE_TEXT] :=
  ⟨by decide,
   line_stream_yields_lines ascii_check world_three_lines [none] "printf" ["a\\nb\\r\\nc"] ⟨[]⟩
     2 (by decide) (by decide)⟩

/-! ## What holds on the paths the examples above leave -/

/-- When the spawn succeeds and the call returns, the dispositions of `SIGINT` and
`SIGQUIT` and the signal mask are those of entry. -/
theorem run_command_restores_signals (w : World) (environ : List CStr) (t : Thread)
    (exe : Text_t) (arg_list : List Text_t) (T : Table_t) (input_bytes : Option (List Byte))
    (want_output want_error : Bool) (hspawn : w.spawn_ret = 0)
    (hret : (run_command w environ t exe arg_list T input_bytes
      want_output want_error).returned ≠ none) :
    (run_command w environ t exe arg_list T input_bytes want_output want_error).thread.sigint
      = t.sigint
    ∧ (run_command w environ t exe arg_list T input_bytes want_output want_error).thread.sigquit
      = t.sigquit
    ∧ (run_command w environ t exe arg_list T input_bytes want_output want_error).thread.sigmask
      = t.sigmask := by
  revert hret
  unfold run_command
  dsimp only
  rw [if_neg (not_not.mpr hspawn)]
  split_ifs
  · intro h; exact absurd rfl h
  · intro h; exact absurd rfl h
  all_goals
    intro _
    exact ⟨rfl, rfl, rfl⟩

/-- When the spawn fails, whatever the caller's settings, the call returns -1 with
`SIGINT` and `SIGQUIT` ignored, `SIGCHLD` blocked, and `errno` as the spawn call left
it. -/
theorem run_command_spawn_failure (w : World) (environ : List CStr) (t : Thread)
    (exe : Text_t) (arg_list : List Text_t) (T : Table_t) (input_bytes : Option (List Byte))
    (want_output want_error : Bool) (hspawn : w.spawn_ret ≠ 0) :
    (run_command w environ t exe arg_list T input_bytes want_output want_error).returned
      = some (-1)
    ∧ (run_command w environ t exe arg_list T input_bytes
        want_output want_error).thread.sigint.sa_handler = .SIG_IGN
    ∧ (run_command w environ t exe arg_list T input_bytes
        want_output want_error).thread.sigquit.sa_handler = .SIG_IGN
    ∧ (run_command w environ t exe arg_list T input_bytes
        want_output want_error).thread.sigmask SIGCHLD = true
    ∧ (run_command w environ t exe arg_list T input_bytes
        want_output want_error).thread.errno = w.spawn_errno.getD t.errno := by
  unfold run_command
  dsimp only
  rw [if_pos hspawn]
  refine ⟨rfl, rfl, rfl, ?_, rfl⟩
  simp [run_command_signals, sigaddset]

/-- When the first `waitpid` reaps a child that exited with code `K`, the loop ends with
the status that decodes to `K`. -/
theorem wait_loop_reaped_first (pid : Nat) (K : Int) (rest : List WaitResult) (r : Reap)
    (h0 : 0 ≤ K) (h255 : K ≤ 255) :
    (wait_loop pid (.reaped (K * 256) :: rest) r).2 = true
    ∧ WEXITSTATUS (wait_loop pid (.reaped (K * 256) :: rest) r).1.status = K
    ∧ WIFEXITED (wait_loop pid (.reaped (K * 256) :: rest) r).1.status = true := by
  simp only [wait_loop, WEXITSTATUS, WIFEXITED, true_and]
  refine ⟨?_, ?_⟩
  · rw [Int.mul_ediv_cancel K (by norm_num : (256 : Int) ≠ 0)]
    exact Int.emod_eq_of_lt h0 (by omega)
  · have : K * 256 % 128 = 0 := by omega
    simp [this]

/-- An interrupted first `waitpid` ends the loop at once, with the status still 0: the
initial status passes the `WIFEXITED` test. -/
theorem wait_loop_interrupted_first (pid : Nat) (rest : List WaitResult) (errno : Int)
    (trace : List Call) :
    wait_loop pid (.failed EINTR :: rest) { status := 0, errno := errno, trace := trace }
      = ({ status := 0, errno := EINTR, trace := trace ++ [.waitpid pid] }, true) := by
  simp [wait_loop, WIFEXITED]

end Commands
